import Mathlib

/-!
Verification of the `dlog` structured-logging core (Go package `dlog`).

The encoder pipeline of `meta.go` is embedded shallowly: the mutable
`textEncoder` becomes a Lean structure threaded through the operations, the
`io.Writer` sink becomes an explicit state-transformer, and Go's `error`
values become `Option String` (an error's message).  External collaborators
(the Go standard library's `strconv` number formatting, `time.Time`
formatting, `runtime.Caller`, the `sync.Pool`) are modelled at their
observable interface, as documented on each definition.
-/

/-- Modelled from the spec: the file declaring `Level` and the six standard
level constants is not under `src/` (only `meta.go` and the logger use them).
The spec describes the level gate as "a single integer" with six ordered
standard levels, `InfoLevel` being the default threshold, and custom integer
levels rendered in decimal.  Concrete values are chosen to respect the
documented order `Debug < Info < Warn < Error < Panic < Fatal`; no claim
depends on the particular integers, only on their order and distinctness. -/
abbrev Level := Int

/-- Modelled from the spec: the Debug level, below the default threshold. -/
def DebugLevel : Level := -1

/-- Modelled from the spec: the Info level, the default threshold set by
`MakeMeta`. -/
def InfoLevel : Level := 0

/-- Modelled from the spec: the Warn level. -/
def WarnLevel : Level := 1

/-- Modelled from the spec: the Error level. -/
def ErrorLevel : Level := 2

/-- Modelled from the spec: the Panic level. -/
def PanicLevel : Level := 3

/-- Modelled from the spec: the Fatal level. -/
def FatalLevel : Level := 4

/-- A Go `error` value, modelled by its message string (`err.Error()`).
`none` is Go's `nil` error. -/
abbrev GoError := String

/-- The error built by `fmt.Errorf("incomplete write: only wrote %v of %v
bytes", n, expectedBytes)` in `textEncoder.WriteEntry`. -/
def incompleteWriteMsg (n expectedBytes : Nat) : String :=
  "incomplete write: only wrote " ++ toString n ++ " of " ++
    toString expectedBytes ++ " bytes"

/-- A Go `time.Time` value, observed through the only operation the encoder
performs on it: `t.AppendFormat(buf, layout)`.  A time value is therefore
modelled as the function taking a layout string to the formatted text the
standard library produces for it. -/
def GoTime : Type := String → String

/-- The `textEncoder` struct of `meta.go`:

    type textEncoder struct \x7b
        bytes       []byte
        timeFmt     string
        firstNested bool
    \x7d

The byte buffer is modelled as a `String`; every byte the source appends is
ASCII text, so byte-for-byte equality of buffers coincides with equality of
the modelled strings (and `len(bytes)` with `String.length`). -/
structure TextEncoder where
  bytes : String
  timeFmt : String
  firstNested : Bool
deriving DecidableEq

/-- The `LogMarshaler` interface, observed through its single method
`MarshalLog(KeyValue) error`.  The callback receives the encoder as its
key/value sink and may mutate it; it is modelled as an arbitrary state
transformer returning the possibly-mutated encoder and the callback's
error. -/
def LogMarshaler : Type := TextEncoder → TextEncoder × Option GoError

/-- Lowercase hexadecimal digits of `n`, as produced by Go's
`strconv.AppendUint(bytes, n, 16)` (standard-library collaborator). -/
def natToHex (n : Nat) : String :=
  String.mk (Nat.toDigits 16 n)

/-- A finite IEEE-754 double (Go `float64`), in the sign/mantissa/exponent
form `(-1)^neg * m * 2^e`.  Normal numbers have `2^52 ≤ m < 2^53`; `m = 0`
encodes zero.  This is the argument type of `AddFloat64`. -/
structure Float64 where
  neg : Bool
  m : Nat
  e : Int
deriving DecidableEq

/-- Core of the shortest-round-trip search used to model
`strconv.AppendFloat(bytes, val, 'f', -1, 64)`: all quantities are scaled by
`2^s` (`pow2s = 2^s`) so that the value `aV`, the lower rounding boundary
`aLow` and the upper rounding boundary `aHigh` are natural numbers.  For
increasing digit counts `k`, the interval `[aLow/2^s, aHigh/2^s]` (open when
`inclusive` is false, i.e. when the mantissa is odd) is searched for a
decimal `n/10^k`; the first `k` admitting one yields the shortest decimal
that re-parses (round-to-nearest-even) to the original double, and among the
candidates the one closest to the value is chosen, as Go's formatter does.
`fuel` bounds the search depth; 1200 exceeds the decimal length of any
finite double, so the fallback `(0, 0)` is never reached for a genuine
input. -/
def shortestDigits (aLow aV aHigh pow2s : Nat) (inclusive : Bool) :
    Nat → Nat → Nat × Nat
  | _, 0 => (0, 0)
  | k, fuel+1 =>
    let p10 := 10 ^ k
    let nLo := if inclusive then (aLow * p10 + pow2s - 1) / pow2s
               else aLow * p10 / pow2s + 1
    let nHi := if inclusive then aHigh * p10 / pow2s
               else (aHigh * p10 + pow2s - 1) / pow2s - 1
    if nLo ≤ nHi then
      let r := (aV * p10 + pow2s / 2) / pow2s
      (max nLo (min r nHi), k)
    else
      shortestDigits aLow aV aHigh pow2s inclusive (k+1) fuel

/-- Renders the decimal `±n / 10^k` in fixed-point notation, the way Go's
`'f'` format does: no exponent, a decimal point only when `k > 0`. -/
def fixedString (neg : Bool) (n k : Nat) : String :=
  let ds := Nat.toDigits 10 n
  let ds := List.replicate (k + 1 - ds.length) '0' ++ ds
  let intPart := String.mk (ds.take (ds.length - k))
  let body := if k = 0 then intPart
              else intPart ++ "." ++ String.mk (ds.drop (ds.length - k))
  if neg then "-" ++ body else body

/-- Model of the standard-library collaborator
`strconv.AppendFloat(bytes, val, 'f', -1, 64)`: the shortest fixed-point
decimal that re-parses to the same float64.  The rounding interval around
`v = m * 2^e` extends half a unit in the last place on each side (a quarter
below when `m = 2^52`, where the predecessor gap halves) and is inclusive
exactly when the mantissa is even (round-to-nearest-even accepts the
boundary then).  Everything is scaled by `2^s` with `s = max 0 (2 - e)` so
the arithmetic stays in `Nat`. -/
def formatFloatShortest (f : Float64) : String :=
  if f.m = 0 then (if f.neg then "-0" else "0")
  else
    let s : Nat := (2 - f.e).toNat
    let es : Nat := (f.e + s).toNat
    let pow2s := 2 ^ s
    let aV := f.m * 2 ^ es
    let half := 2 ^ (es - 1)
    let quarter := 2 ^ (es - 2)
    let aLow := aV - (if f.m = 2 ^ 52 then quarter else half)
    let aHigh := aV + half
    let inclusive := f.m % 2 = 0
    let nk := shortestDigits aLow aV aHigh pow2s inclusive 0 1200
    fixedString f.neg nk.1 nk.2

/-- The helper `(enc *textEncoder) addKey(key)` of `meta.go`: a separating
space is appended when the buffer is non-empty (`lastIdx >= 0`) and the
first-nested flag is clear; otherwise the flag is cleared.  Then the key and
`=` are appended. -/
def TextEncoder.addKey (enc : TextEncoder) (key : String) : TextEncoder :=
  let lastIdx : Int := (enc.bytes.length : Int) - 1
  let enc :=
    if lastIdx ≥ 0 ∧ enc.firstNested = false then
      { enc with bytes := enc.bytes ++ " " }
    else
      { enc with firstNested := false }
  let enc := { enc with bytes := enc.bytes ++ key }
  { enc with bytes := enc.bytes ++ "=" }

/-- `AddString` of `meta.go`: key, then the raw value bytes. -/
def TextEncoder.AddString (enc : TextEncoder) (key val : String) : TextEncoder :=
  let enc := enc.addKey key
  { enc with bytes := enc.bytes ++ val }

/-- `AddBool` of `meta.go`; `strconv.AppendBool` writes `true` / `false`. -/
def TextEncoder.AddBool (enc : TextEncoder) (key : String) (val : Bool) : TextEncoder :=
  let enc := enc.addKey key
  { enc with bytes := enc.bytes ++ (if val then "true" else "false") }

/-- `AddInt64` of `meta.go`; `strconv.AppendInt(bytes, val, 10)` writes the
signed decimal representation. -/
def TextEncoder.AddInt64 (enc : TextEncoder) (key : String) (val : Int) : TextEncoder :=
  let enc := enc.addKey key
  { enc with bytes := enc.bytes ++ toString val }

/-- `AddInt` of `meta.go`, delegating to `AddInt64`. -/
def TextEncoder.AddInt (enc : TextEncoder) (key : String) (val : Int) : TextEncoder :=
  enc.AddInt64 key val

/-- `AddUint64` of `meta.go`; `strconv.AppendUint(bytes, val, 10)`. -/
def TextEncoder.AddUint64 (enc : TextEncoder) (key : String) (val : Nat) : TextEncoder :=
  let enc := enc.addKey key
  { enc with bytes := enc.bytes ++ toString val }

/-- `AddUint` of `meta.go`, delegating to `AddUint64`. -/
def TextEncoder.AddUint (enc : TextEncoder) (key : String) (val : Nat) : TextEncoder :=
  enc.AddUint64 key val

/-- `AddUintptr` of `meta.go`: a literal `0x` prefix, then the value in
lowercase hexadecimal (`strconv.AppendUint(bytes, val, 16)`). -/
def TextEncoder.AddUintptr (enc : TextEncoder) (key : String) (val : Nat) : TextEncoder :=
  let enc := enc.addKey key
  let enc := { enc with bytes := enc.bytes ++ "0x" }
  { enc with bytes := enc.bytes ++ natToHex val }

/-- `AddFloat64` of `meta.go`;
`strconv.AppendFloat(bytes, val, 'f', -1, 64)` is `formatFloatShortest`. -/
def TextEncoder.AddFloat64 (enc : TextEncoder) (key : String) (val : Float64) : TextEncoder :=
  let enc := enc.addKey key
  { enc with bytes := enc.bytes ++ formatFloatShortest val }

/-- `AddMarshaler` of `meta.go`:

    enc.addKey(key)
    enc.firstNested = true
    enc.bytes = append(enc.bytes, \x7b)
    err := obj.MarshalLog(enc)
    enc.bytes = append(enc.bytes, \x7d)
    enc.firstNested = false
    return err

The closing brace is appended and the flag cleared whether or not the
callback failed, and the callback's error is returned unchanged. -/
def TextEncoder.AddMarshaler (enc : TextEncoder) (key : String) (obj : LogMarshaler) :
    TextEncoder × Option GoError :=
  let enc := enc.addKey key
  let enc := { enc with firstNested := true }
  let enc := { enc with bytes := enc.bytes ++ "\x7b" }
  let res := obj enc
  let enc := res.1
  let enc := { enc with bytes := enc.bytes ++ "\x7d" }
  let enc := { enc with firstNested := false }
  (enc, res.2)

/-- `AddObject` of `meta.go`: `enc.AddString(key, fmt.Sprintf("%+v", obj))`
followed by `return nil`.  The introspective `%+v` rendering of the opaque
object is a standard-library collaborator and enters as the string
`objRepr`. -/
def TextEncoder.AddObject (enc : TextEncoder) (key objRepr : String) :
    TextEncoder × Option GoError :=
  (enc.AddString key objRepr, none)

/-- A `TextOption` of `meta.go`, observed through its `apply` method. -/
def TextOption : Type := TextEncoder → TextEncoder

/-- `TextTimeFormat(layout)` of `meta.go`. -/
def TextTimeFormat (layout : String) : TextOption :=
  fun enc => { enc with timeFmt := layout }

/-- `TextNoTime()` of `meta.go`: `TextTimeFormat("")`. -/
def TextNoTime : TextOption := TextTimeFormat ""

/-- The Go constant `time.RFC3339`. -/
def timeRFC3339 : String := "2006-01-02T15:04:05Z07:00"

/-- `NewTextEncoder(options...)` of `meta.go`: take an encoder from the pool,
truncate its buffer, set the RFC3339 time format, then apply the options in
order.  A pooled encoder's `firstNested` field is not reset by `truncate`,
but every encoder ever returned to the pool has it `false` (the pool's `New`
zero-initializes it, `addKey` and `AddMarshaler` always leave it `false`),
so the freshly acquired encoder is modelled with `firstNested := false`. -/
def NewTextEncoder (options : List TextOption) : TextEncoder :=
  let enc : TextEncoder := { bytes := "", timeFmt := timeRFC3339, firstNested := false }
  options.foldl (fun e opt => opt e) enc

/-- `Clone` of `meta.go`: a fresh pooled encoder is truncated, the buffer
bytes are appended into the fresh encoder's own backing array, and the time
format and first-nested flag are copied, so the clone shares no storage with
the original. -/
def TextEncoder.Clone (enc : TextEncoder) : TextEncoder :=
  { bytes := enc.bytes, timeFmt := enc.timeFmt, firstNested := enc.firstNested }

/-- The text between the brackets written by `addLevel` of `meta.go`: the
switch mapping the six standard levels to their single letter, defaulting to
`strconv.AppendInt(bytes, int64(lvl), 10)`. -/
def levelText (lvl : Level) : String :=
  if lvl = DebugLevel then "D"
  else if lvl = InfoLevel then "I"
  else if lvl = WarnLevel then "W"
  else if lvl = ErrorLevel then "E"
  else if lvl = PanicLevel then "P"
  else if lvl = FatalLevel then "F"
  else toString lvl

/-- `(enc *textEncoder) addLevel(final, lvl)` of `meta.go`: `[`, the level
text, `]`, appended to `final.bytes` (the receiver is unused). -/
def TextEncoder.addLevel (enc final : TextEncoder) (lvl : Level) : TextEncoder :=
  let final := { final with bytes := final.bytes ++ "[" }
  let final := { final with bytes := final.bytes ++ levelText lvl }
  { final with bytes := final.bytes ++ "]" }

/-- `(enc *textEncoder) addTime(final, t)` of `meta.go`: nothing when the
receiver's `timeFmt` is empty, otherwise a space and
`t.AppendFormat(final.bytes, enc.timeFmt)`. -/
def TextEncoder.addTime (enc final : TextEncoder) (t : GoTime) : TextEncoder :=
  if enc.timeFmt = "" then final
  else
    let final := { final with bytes := final.bytes ++ " " }
    { final with bytes := final.bytes ++ t enc.timeFmt }

/-- `(enc *textEncoder) addCaller(final, caller, line)` of `meta.go`:
a space, `[`, the caller file, `:`, the decimal line number, `]`. -/
def TextEncoder.addCaller (enc final : TextEncoder) (caller : String) (line : Int) : TextEncoder :=
  let final := { final with bytes := final.bytes ++ " [" }
  let final := { final with bytes := final.bytes ++ caller }
  let final := { final with bytes := final.bytes ++ ":" }
  let final := { final with bytes := final.bytes ++ toString line }
  { final with bytes := final.bytes ++ "]" }

/-- `(enc *textEncoder) addMessage(final, msg)` of `meta.go`: a space and
the message. -/
def TextEncoder.addMessage (enc final : TextEncoder) (msg : String) : TextEncoder :=
  let final := { final with bytes := final.bytes ++ " " }
  { final with bytes := final.bytes ++ msg }

/-- The bytes `WriteEntry` of `meta.go` assembles into the pooled `final`
encoder before the single write: level tag, optional timestamp, caller,
message, then — when the receiver has accumulated context — a space and the
context buffer, and a trailing newline.  The pooled `final` starts from a
truncated (empty) buffer; its stale `timeFmt` and `firstNested` fields are
never read by the `add*` helpers, which consult the receiver `enc`. -/
def TextEncoder.entryBytes (enc : TextEncoder) (caller : String) (line : Int)
    (msg : String) (lvl : Level) (t : GoTime) : String :=
  let final : TextEncoder := { bytes := "", timeFmt := "", firstNested := false }
  let final := enc.addLevel final lvl
  let final := enc.addTime final t
  let final := enc.addCaller final caller line
  let final := enc.addMessage final msg
  let final :=
    if enc.bytes.length > 0 then
      let final := { final with bytes := final.bytes ++ " " }
      { final with bytes := final.bytes ++ enc.bytes }
    else final
  let final := { final with bytes := final.bytes ++ "\n" }
  final.bytes

/-- An `io.Writer` sink: `Write` consumes the bytes, transforms the sink
state, and reports the byte count written plus an optional error.  `σ` is
the sink's state (for a recording sink, the list of write calls made). -/
structure GoWriter (σ : Type) where
  write : σ → String → σ × Nat × Option GoError

/-- `WriteEntry` of `meta.go`.  The first component of the result is the
receiver as it stands after the call: the body reads `enc.timeFmt` (in
`addTime`) and `enc.bytes` (for the context segment) but contains no
assignment to any receiver field — all mutation targets the separately
pooled `final` encoder, which is freed before returning — so the receiver
is handed back unchanged on every path.  After the single `sink.Write`, a
non-nil write error is returned as-is; otherwise a count differing from the
assembled length yields the incomplete-write error. -/
def TextEncoder.WriteEntry {σ : Type} (enc : TextEncoder) (w : GoWriter σ) (s : σ)
    (caller : String) (line : Int) (msg : String) (lvl : Level) (t : GoTime) :
    TextEncoder × σ × Option GoError :=
  let eb := enc.entryBytes caller line msg lvl t
  let expectedBytes := eb.length
  let res := w.write s eb
  match res.2.2 with
  | some e => (enc, res.1, some e)
  | none =>
    if res.2.1 ≠ expectedBytes then
      (enc, res.1, some (incompleteWriteMsg res.2.1 expectedBytes))
    else
      (enc, res.1, none)

/-- The `Meta` struct of `meta.go`, in its functional view used by the
logging pipeline.  The Go struct also carries `Development` (unused by any
code under `src/` other than its declaration), `Output` and `ErrorOutput`;
the two sinks appear in this embedding as the `GoWriter`/`LogState`
parameters of `logger.log`.  `lvl` is the `int32` level cell; reading it
through `Level()` (an atomic load of the value-receiver copy's cell) yields
exactly the stored value, so the functional view is faithful for every
read.  The memory behaviour of the cell across copies — what `SetLevel`
actually affects — is modelled separately below (`Mem`, `MetaV`). -/
structure Meta where
  lvl : Level
  Encoder : TextEncoder

/-- `MakeMeta` of `meta.go`: level defaults to `InfoLevel`. -/
def MakeMeta (enc : TextEncoder) : Meta :=
  { lvl := InfoLevel, Encoder := enc }

/-- `Level()` of `meta.go`: `atomic.LoadInt32(&m.lvl)` on the receiver copy
returns the stored value. -/
def Meta.Level (m : Meta) : Level := m.lvl

/-- `Clone()` of `meta.go`: the encoder is deep-copied, the rest of the
struct (including the inline `lvl` cell) is copied by value. -/
def Meta.Clone (m : Meta) : Meta :=
  { m with Encoder := m.Encoder.Clone }

/-- Modelled from the spec: the `Field` constructors file is not under
`src/` (the logger and its test only call `String(...)` and `Int(...)`).
The spec describes `Field` as an immutable tagged union over the scalar
kinds plus the two structured kinds; the `object` kind carries the generic
`%+v` rendering its `AddObject` fallback would print. -/
inductive dlog.Field where
  | string (key val : String)
  | bool (key : String) (val : Bool)
  | int (key : String) (val : Int)
  | int64 (key : String) (val : Int)
  | uint64 (key : String) (val : Nat)
  | uintptr (key : String) (val : Nat)
  | float64 (key : String) (val : Float64)
  | marshaler (key : String) (obj : LogMarshaler)
  | object (key r : String)

/-- Modelled from the spec: applying one field to the encoder through the
KeyValue contract, each kind dispatching to its `Add*` operation. -/
def dlog.Field.addTo (f : dlog.Field) (enc : TextEncoder) : TextEncoder :=
  match f with
  | .string k v => enc.AddString k v
  | .bool k v => enc.AddBool k v
  | .int k v => enc.AddInt k v
  | .int64 k v => enc.AddInt64 k v
  | .uint64 k v => enc.AddUint64 k v
  | .uintptr k v => enc.AddUintptr k v
  | .float64 k v => enc.AddFloat64 k v
  | .marshaler k obj => (enc.AddMarshaler k obj).1
  | .object k r => (enc.AddObject k r).1

/-- Modelled from the spec: `addFields(temp, fields)` as called by
`logger.log` — the per-call fields are applied to the clone in order via
the KeyValue contract.  The call site discards any result, so no error is
surfaced here. -/
def addFields (enc : TextEncoder) (fields : List dlog.Field) : TextEncoder :=
  fields.foldl (fun e f => f.addTo e) enc

/-- The observable output state of one logger: the `Output` sink's state
`out` and the lines printed to `ErrorOutput` by `internalError`
(`fmt.Fprintln` appends a newline). -/
structure LogState (σ : Type) where
  out : σ
  errOut : List String
deriving DecidableEq

/-- `(log *logger) log(lvl, msg, fields)` of the logger source file: return
at once when `lvl >= log.Level()` fails; otherwise clone the accumulated
encoder, merge the call-site fields, and write the entry, routing any
`WriteEntry` error to `internalError`.  The caller file/line (resolved by
`runtime.Caller` inside `CallerName1`) and the current time (`time.Now()`)
are external inputs and enter as parameters. -/
def logger.log {σ : Type} (w : GoWriter σ) (m : Meta) (st : LogState σ)
    (lvl : Level) (msg : String) (fields : List dlog.Field)
    (caller : String) (line : Int) (t : GoTime) : LogState σ :=
  if ¬ lvl ≥ m.Level then st
  else
    let temp := m.Encoder.Clone
    let temp := addFields temp fields
    let res := temp.WriteEntry w st.out caller line msg lvl t
    match res.2.2 with
    | some e => { out := res.2.1, errOut := st.errOut ++ [e ++ "\n"] }
    | none => { out := res.2.1, errOut := st.errOut }

/-- `Info(msg, fields...)` of the logger source file:
`dlogger.log(InfoLevel, msg, fields)`.  The global `dlogger`'s Meta is the
explicit `m`. -/
def Info {σ : Type} (w : GoWriter σ) (m : Meta) (st : LogState σ)
    (msg : String) (fields : List dlog.Field)
    (caller : String) (line : Int) (t : GoTime) : LogState σ :=
  logger.log w m st InfoLevel msg fields caller line t

/-- A recording sink: every write succeeds in full and is appended to the
list of write calls, so the final state lists exactly the write calls made
and their payloads. -/
def recWriter : GoWriter (List String) :=
  { write := fun s b => (s ++ [b], b.length, none) }

/-- A stub sink that accepts the bytes but reports only `n` of them
written, with a nil error. -/
def shortWriter (n : Nat) : GoWriter (List String) :=
  { write := fun s b => (s ++ [b], n, none) }

/-- A stub sink that fails every write with the given error after
reporting `n` bytes written. -/
def failWriter (n : Nat) (e : GoError) : GoWriter (List String) :=
  { write := fun s b => (s ++ [b], n, some e) }

/-- Memory for the level cells: Go stores `lvl int32` inline in the `Meta`
struct, so every `Meta` value living in a distinct variable owns a distinct
`int32` cell.  A cell address is an index into this store. -/
structure Mem where
  cells : List Int

/-- Allocates a fresh cell holding `v`, returning its address. -/
def Mem.alloc (h : Mem) (v : Int) : Mem × Nat :=
  ({ cells := h.cells ++ [v] }, h.cells.length)

/-- Reads the cell at address `a`. -/
def Mem.read (h : Mem) (a : Nat) : Int :=
  h.cells.getD a 0

/-- Overwrites the cell at address `a`. -/
def Mem.write (h : Mem) (a : Nat) (v : Int) : Mem :=
  { cells := h.cells.set a v }

/-- A `Meta` value as a Go variable holds it: `lvlAddr` is the address of
the `int32` cell stored inline in that particular copy of the struct. -/
structure MetaV where
  lvlAddr : Nat

/-- Go struct assignment: copying a `Meta` value (into another variable, a
function argument, a return value, or a value receiver) copies the inline
`int32` field bit-for-bit into storage owned by the new copy — the cell is
not shared. -/
def metaCopy (h : Mem) (m : MetaV) : Mem × MetaV :=
  let v := h.read m.lvlAddr
  let ha := h.alloc v
  (ha.1, { lvlAddr := ha.2 })

/-- `MakeMeta` at the memory level: the returned struct's `lvl` cell holds
`InfoLevel`.  (The copies made when returning and binding the struct do not
change the observable behaviour and are elided.) -/
def MakeMetaV (h : Mem) : Mem × MetaV :=
  let ha := h.alloc InfoLevel
  (ha.1, { lvlAddr := ha.2 })

/-- The call `m.SetLevel(v)` of `meta.go` at the memory level.  `SetLevel`
is declared on a VALUE receiver — `func (m Meta) SetLevel(lvl Level)` — so
Go first copies the caller's struct into the receiver variable, and
`atomic.StoreInt32(&m.lvl, int32(lvl))` then stores into the copy's cell,
which dies when the method returns. -/
def Meta.SetLevelCall (h : Mem) (m : MetaV) (lvl : Int) : Mem :=
  let hr := metaCopy h m
  hr.1.write hr.2.lvlAddr lvl

/-- The call `m.Level()` of `meta.go` at the memory level: the value
receiver is a copy, and `atomic.LoadInt32(&m.lvl)` reads the copy's cell,
which holds the same value as the caller's. -/
def Meta.LevelCall (h : Mem) (m : MetaV) : Int :=
  let hr := metaCopy h m
  hr.1.read hr.2.lvlAddr

/-- The call `c := m.Clone()` of `meta.go` at the memory level: the value
receiver is a copy of `m`, whose `Encoder` field is replaced by a deep copy
(not modelled here — the level cell is the point), and the returned struct
is copied again into the caller's variable. -/
def Meta.CloneCall (h : Mem) (m : MetaV) : Mem × MetaV :=
  let hr := metaCopy h m
  metaCopy hr.1 hr.2

/-- The encoder state at the moment `AddMarshaler` hands the encoder to the
marshaler's callback: key and `=` appended, the opening brace appended, and
the first-nested flag set (so the callback's first field is rendered without
a leading space). -/
def openedFor (enc : TextEncoder) (key : String) : TextEncoder :=
  let a := enc.addKey key
  { bytes := a.bytes ++ "\x7b", timeFmt := a.timeFmt, firstNested := true }

set_option maxHeartbeats 1600000 in
/-- Claim C1 (confirmed): a logger at `InfoLevel` with RFC3339 timestamps,
on `Info("reqprice:", String("key","apple"), Int("price",100))` at a time
whose RFC3339 rendering is `2024-01-01T00:00:00Z`, called from `file.go`
line 42, makes exactly one write call to the sink, whose payload is the
single line `[I] 2024-01-01T00:00:00Z [file.go:42] reqprice: key=apple
price=100\n`, and reports no internal error. -/
theorem c1_end_to_end (t : GoTime)
    (hT : t timeRFC3339 = "2024-01-01T00:00:00Z") :
    Info recWriter (MakeMeta (NewTextEncoder [])) ⟨[], []⟩ "reqprice:"
      [dlog.Field.string "key" "apple", dlog.Field.int "price" 100]
      "file.go" 42 t =
      ⟨["[I] 2024-01-01T00:00:00Z [file.go:42] reqprice: key=apple price=100\n"], []⟩ := by
  have h2 : Info recWriter (MakeMeta (NewTextEncoder [])) ⟨[], []⟩ "reqprice:"
      [dlog.Field.string "key" "apple", dlog.Field.int "price" 100]
      "file.go" 42 t =
      Info recWriter (MakeMeta (NewTextEncoder [])) ⟨[], []⟩ "reqprice:"
      [dlog.Field.string "key" "apple", dlog.Field.int "price" 100]
      "file.go" 42 (fun _ => t timeRFC3339) := rfl
  rw [h2, hT]
  decide

/-- Witness for C1 at the concrete time value whose RFC3339 rendering is
`2024-01-01T00:00:00Z`. -/
theorem c1_witness :
    (fun _ : String => "2024-01-01T00:00:00Z") timeRFC3339 = "2024-01-01T00:00:00Z" ∧
    Info recWriter (MakeMeta (NewTextEncoder [])) ⟨[], []⟩ "reqprice:"
      [dlog.Field.string "key" "apple", dlog.Field.int "price" 100]
      "file.go" 42 (fun _ => "2024-01-01T00:00:00Z") =
      ⟨["[I] 2024-01-01T00:00:00Z [file.go:42] reqprice: key=apple price=100\n"], []⟩ :=
  ⟨rfl, c1_end_to_end (fun _ => "2024-01-01T00:00:00Z") rfl⟩

/-- Claim C2 (code bug, evaluated at the failing input): the level cell is
NOT shared across copies.  With `m := MakeMeta(...)`, `c := m.Clone()`,
after `m.SetLevel(DebugLevel)` both `c.Level()` and even `m.Level()` still
return `InfoLevel`: `SetLevel` is declared on a value receiver, so its
atomic store lands in a receiver copy that is discarded when the method
returns.  This contradicts the claim, the spec, and the method's own doc
comment ("SetLevel atomically alters the the logging level for this Meta
and all its clones"). -/
theorem c2_setlevel_lost :
    (Meta.LevelCall
        (Meta.SetLevelCall (Meta.CloneCall (MakeMetaV ⟨[]⟩).1 (MakeMetaV ⟨[]⟩).2).1
          (MakeMetaV ⟨[]⟩).2 DebugLevel)
        (Meta.CloneCall (MakeMetaV ⟨[]⟩).1 (MakeMetaV ⟨[]⟩).2).2 = InfoLevel) ∧
    (Meta.LevelCall
        (Meta.SetLevelCall (Meta.CloneCall (MakeMetaV ⟨[]⟩).1 (MakeMetaV ⟨[]⟩).2).1
          (MakeMetaV ⟨[]⟩).2 DebugLevel)
        (MakeMetaV ⟨[]⟩).2 = InfoLevel) ∧
    InfoLevel ≠ DebugLevel :=
  ⟨rfl, rfl, by decide⟩

/-- Claim C3 (confirmed): with the sink recording every write, a log call
at level `lvl` against threshold `m.Level` appends exactly one entry to the
sink when `lvl ≥ m.Level` and leaves the whole state untouched (no write,
no internal error) otherwise — for every integer level, so in particular
for the six standard levels and any custom one. -/
theorem c3_level_filtering (m : Meta) (st : LogState (List String)) (lvl : Level)
    (msg : String) (fields : List dlog.Field) (caller : String) (line : Int) (t : GoTime) :
    logger.log recWriter m st lvl msg fields caller line t =
      if lvl ≥ m.Level then
        { out := st.out ++ [(addFields m.Encoder.Clone fields).entryBytes caller line msg lvl t],
          errOut := st.errOut }
      else st := by
  by_cases h : lvl ≥ m.Level
  · rw [if_pos h]
    unfold logger.log
    rw [if_neg (not_not_intro h)]
    simp [TextEncoder.WriteEntry, recWriter]
  · rw [if_neg h]
    unfold logger.log
    rw [if_pos h]

/-- Claim C4 (confirmed): for every encoder state and sink, when the sink's
write reports fewer bytes than the assembled entry and no error,
`WriteEntry` returns the incomplete-write error carrying the actual and
expected counts; when the sink's write reports an error, that error is
returned unchanged. -/
theorem c4_write_errors {σ : Type} (w : GoWriter σ) (s : σ) (enc : TextEncoder)
    (caller : String) (line : Int) (msg : String) (lvl : Level) (t : GoTime) :
    (∀ s2 n, w.write s (enc.entryBytes caller line msg lvl t) = (s2, n, none) →
        n < (enc.entryBytes caller line msg lvl t).length →
        (enc.WriteEntry w s caller line msg lvl t).2.2 =
          some (incompleteWriteMsg n (enc.entryBytes caller line msg lvl t).length)) ∧
    (∀ s2 n e, w.write s (enc.entryBytes caller line msg lvl t) = (s2, n, some e) →
        (enc.WriteEntry w s caller line msg lvl t).2.2 = some e) := by
  constructor
  · intro s2 n hw hlt
    unfold TextEncoder.WriteEntry
    simp only [hw]
    simp [Nat.ne_of_lt hlt]
  · intro s2 n e hw
    unfold TextEncoder.WriteEntry
    simp only [hw]

/-- Witness for C4: a stub sink reporting 3 bytes written yields the
incomplete-write error with counts 3 and the entry length; a failing sink's
error comes back unchanged. -/
theorem c4_witness :
    ((NewTextEncoder []).WriteEntry (shortWriter 3) [] "file.go" 42 "m" InfoLevel
        (fun _ => "T")).2.2 =
      some (incompleteWriteMsg 3
        ((NewTextEncoder []).entryBytes "file.go" 42 "m" InfoLevel (fun _ => "T")).length) ∧
    ((NewTextEncoder []).WriteEntry (failWriter 0 "boom") [] "file.go" 42 "m" InfoLevel
        (fun _ => "T")).2.2 = some "boom" :=
  ⟨(c4_write_errors (shortWriter 3) [] (NewTextEncoder []) "file.go" 42 "m" InfoLevel
      (fun _ => "T")).1 _ 3 rfl (by decide),
   (c4_write_errors (failWriter 0 "boom") [] (NewTextEncoder []) "file.go" 42 "m" InfoLevel
      (fun _ => "T")).2 _ 0 "boom" rfl⟩

/-- Claim C5 (confirmed): for every encoder and every marshaler callback,
`AddMarshaler(key, obj)` appends the key, `=` and the opening brace, hands
the callback the encoder in the `openedFor` state (first-nested flag set,
so the first nested field renders with no leading space), appends the
closing brace and clears the flag whatever the callback returned, and
returns exactly the callback's error; concretely, a callback adding string
fields a=1 and b=2 renders as `key={a=1 b=2}`. -/
theorem c5_marshaler (enc : TextEncoder) (key : String) (obj : LogMarshaler) :
    (enc.AddMarshaler key obj =
      ({ bytes := (obj (openedFor enc key)).1.bytes ++ "\x7d",
         timeFmt := (obj (openedFor enc key)).1.timeFmt,
         firstNested := false }, (obj (openedFor enc key)).2)) ∧
    (openedFor enc key).bytes = (enc.addKey key).bytes ++ "\x7b" ∧
    (openedFor enc key).firstNested = true ∧
    ((NewTextEncoder []).AddMarshaler "key"
        (fun e => ((e.AddString "a" "1").AddString "b" "2", none))).1.bytes =
      "key=\x7ba=1 b=2\x7d" :=
  ⟨rfl, rfl, rfl, by decide⟩

/-- Claim C6 (confirmed): the clone of an encoder state `E` has a buffer
byte-for-byte identical to `E`'s and the same time format, and — encoders
being by-value data whose clone copies the buffer into its own fresh
backing storage — mutating the clone never changes `E`'s buffer: in the
two-variable caller state `(E, clone)`, applying any mutation to the clone
component leaves the `E` component's buffer what it was, and the clone's
operations depend only on the copied field values, not on `E`. -/
theorem c6_clone_independent (E : TextEncoder) :
    (E.Clone).bytes = E.bytes ∧ (E.Clone).timeFmt = E.timeFmt ∧
    (∀ mutate : TextEncoder → TextEncoder, ((E, mutate E.Clone)).1.bytes = E.bytes) ∧
    (∀ key val, (E.Clone).AddString key val =
      TextEncoder.AddString { bytes := E.bytes, timeFmt := E.timeFmt, firstNested := E.firstNested } key val) :=
  ⟨rfl, rfl, fun _ => rfl, fun _ _ => rfl⟩

/-- Claim C7 (confirmed): for every encoder whose time format is empty, the
rendered entry has no timestamp segment and no leading space for it —
exactly one space stands between the closing level bracket and the opening
caller bracket. -/
theorem c7_no_timestamp (enc : TextEncoder) (h : enc.timeFmt = "")
    (caller : String) (line : Int) (msg : String) (lvl : Level) (t : GoTime) :
    enc.entryBytes caller line msg lvl t =
      "[" ++ levelText lvl ++ "]" ++ " [" ++ caller ++ ":" ++ toString line ++ "]" ++
        " " ++ msg ++ (if enc.bytes.length > 0 then " " ++ enc.bytes else "") ++ "\n" := by
  unfold TextEncoder.entryBytes TextEncoder.addLevel TextEncoder.addTime
    TextEncoder.addCaller TextEncoder.addMessage
  simp only [h, if_pos]
  split_ifs with hb
  · apply String.ext
    simp [String.data_append]
  · apply String.ext
    simp [String.data_append]

/-- Witness for C7: an encoder built with the no-time option renders with
one space between the level bracket and the caller bracket. -/
theorem c7_witness :
    (NewTextEncoder [TextNoTime]).timeFmt = "" ∧
    (NewTextEncoder [TextNoTime]).entryBytes "file.go" 42 "hi" InfoLevel (fun _ => "TIME") =
      "[I] [file.go:42] hi\n" := by
  refine ⟨rfl, ?_⟩
  rw [c7_no_timestamp (NewTextEncoder [TextNoTime]) rfl "file.go" 42 "hi" InfoLevel
      (fun _ => "TIME")]
  decide

/-- Counterexample to claim C8 as stated: on an encoder whose marshaler
callback returned the error "marshal failed" during field addition, a
subsequent `WriteEntry` over a fully successful sink does NOT return that
error — it returns nil.  The error was returned earlier, by `AddMarshaler`
itself; the entry was still emitted with braces closed. -/
theorem c8_counterexample :
    ((NewTextEncoder []).AddMarshaler "key" (fun e => (e, some "marshal failed"))).2 =
        some "marshal failed" ∧
    ((NewTextEncoder []).AddMarshaler "key" (fun e => (e, some "marshal failed"))).1.bytes =
        "key=\x7b\x7d" ∧
    ((((NewTextEncoder []).AddMarshaler "key" (fun e => (e, some "marshal failed"))).1).WriteEntry
        recWriter [] "file.go" 42 "msg" InfoLevel
        (fun _ => "2024-01-01T00:00:00Z")).2.2 ≠ some "marshal failed" ∧
    ((((NewTextEncoder []).AddMarshaler "key" (fun e => (e, some "marshal failed"))).1).WriteEntry
        recWriter [] "file.go" 42 "msg" InfoLevel
        (fun _ => "2024-01-01T00:00:00Z")).2.2 = none :=
  ⟨rfl, by decide, by decide, rfl⟩

/-- Claim C8 as amended (proved): the marshaler's error is returned by
`AddMarshaler` itself, at field-addition time; the braces are still closed
around whatever the callback wrote; and `WriteEntry` never surfaces the
marshal error — over a sink whose writes succeed in full it returns nil,
whatever the receiving encoder's earlier history. -/
theorem c8_amended (enc : TextEncoder) (key : String) (obj : LogMarshaler) :
    (enc.AddMarshaler key obj).2 = (obj (openedFor enc key)).2 ∧
    (enc.AddMarshaler key obj).1.bytes = (obj (openedFor enc key)).1.bytes ++ "\x7d" ∧
    (∀ (s : List String) (caller : String) (line : Int) (msg : String) (lvl : Level) (t : GoTime),
      (((enc.AddMarshaler key obj).1).WriteEntry recWriter s caller line msg lvl t).2.2 = none) := by
  refine ⟨rfl, rfl, ?_⟩
  intro s caller line msg lvl t
  simp [TextEncoder.WriteEntry, recWriter]

/-- Claim C9 (confirmed): on an empty encoder, `AddFloat64("x", 1.5)`
(1.5 = 6755399441055744 * 2^-52) yields buffer `x=1.5` under the
shortest-round-trip decimal model of `strconv.AppendFloat(..., 'f', -1,
64)`; `AddUintptr("p", 0xFF)` yields `p=0xff` (lowercase hex, `0x`
prefix); `AddInt64("n", -7)` yields `n=-7` (signed base-10). -/
theorem c9_numeric_formatting :
    ((NewTextEncoder []).AddFloat64 "x" ⟨false, 6755399441055744, -52⟩).bytes = "x=1.5" ∧
    ((NewTextEncoder []).AddUintptr "p" 255).bytes = "p=0xff" ∧
    ((NewTextEncoder []).AddInt64 "n" (-7)).bytes = "n=-7" :=
  ⟨by decide, by decide, by decide⟩

/-- Claim C10 (confirmed): `WriteEntry` hands the receiving encoder back
unchanged — buffer, time format and first-nested flag — on every outcome
(success, write error, incomplete write): its body reads the receiver but
all mutation targets the separately pooled final encoder. -/
theorem c10_writeentry_frame {σ : Type} (enc : TextEncoder) (w : GoWriter σ) (s : σ)
    (caller : String) (line : Int) (msg : String) (lvl : Level) (t : GoTime) :
    (enc.WriteEntry w s caller line msg lvl t).1 = enc := by
  unfold TextEncoder.WriteEntry
  rcases h : (w.write s (enc.entryBytes caller line msg lvl t)).2.2 with _ | e
  · simp [h]
    split <;> rfl
  · simp [h]
